import Mathlib

/-!
Verification development for the UsenetStreamer repository.

Shallow embedding of the modules the verified claims are about:
* the NZBDav stream mount cache (single-flight resolution cache and the
  negative cache for failed download URLs),
* the persistent instant playback cache,
* the nzbdav2 WebSocket completion watcher (event dispatch and the
  reconnect backoff state machine),
* the smart history matching of the blocklist module
  (release-title tokenizer, similarity scoring and history matching).

JS `Map`s become association lists, timestamps become integers (rationals
for the instant cache whose TTL may be fractional), JS numbers in the
similarity arithmetic become rationals, and promises become identifiers
whose eventual outcome is passed in explicitly.
-/

namespace UsenetStreamer

/-! ### Association-list model of a JS `Map` (insertion order preserved) -/

def assocGet {β : Type} (c : List (String × β)) (k : String) : Option β :=
  match c with
  | [] => none
  | (k', v) :: rest => if k' = k then some v else assocGet rest k

def assocSet {β : Type} (c : List (String × β)) (k : String) (v : β) :
    List (String × β) :=
  match c with
  | [] => [(k, v)]
  | (k', v') :: rest =>
    if k' = k then (k, v) :: rest else (k', v') :: assocSet rest k v

def assocDelete {β : Type} (c : List (String × β)) (k : String) :
    List (String × β) :=
  c.filter (fun p => p.1 ≠ k)

theorem assocGet_set_self {β : Type} (c : List (String × β)) (k : String) (v : β) :
    assocGet (assocSet c k v) k = some v := by
  induction c with
  | nil => simp [assocGet, assocSet]
  | cons hd tl ih =>
    by_cases h : hd.1 = k
    · simp [assocSet, assocGet, h]
    · simp [assocSet, assocGet, h, ih]

theorem assocGet_delete_self {β : Type} (c : List (String × β)) (k : String) :
    assocGet (assocDelete c k) k = none := by
  induction c with
  | nil => simp [assocGet, assocDelete]
  | cons hd tl ih =>
    by_cases h : hd.1 = k
    · simpa [assocDelete, assocGet, h] using ih
    · simpa [assocDelete, assocGet, h] using ih

/-! ### Substring test (model of JS `String.prototype.includes`) -/

def listHasSub (needle : List Char) : List Char → Bool
  | [] => needle.isEmpty
  | c :: rest => List.isPrefixOf needle (c :: rest) || listHasSub needle rest

def strContains (hay needle : String) : Bool :=
  listHasSub needle.data hay.data

/-! ### Errors thrown through the resolution path -/

/-- A JS error as observed by the cache module: its message, optional
`code` property and the `isNzbdavFailure` flag set on explicit backend
failures. -/
structure JsError where
  message : String
  code : Option String
  isNzbdavFailure : Bool
deriving DecidableEq

/-- `isTimeoutError` from the NZBDav cache module: message-substring and
error-code tests for timeouts. -/
def isTimeoutError (e : JsError) : Bool :=
  strContains e.message "Timeout" ||
  strContains e.message "timeout" ||
  strContains e.message "ETIMEDOUT" ||
  strContains e.message "ESOCKETTIMEDOUT" ||
  e.code == some "ETIMEDOUT" ||
  e.code == some "ESOCKETTIMEDOUT"

/-! ### NZBDav stream mount cache (src/unnamed/part_002) -/

/-- A `nzbdavStreamCache` entry.  The four statuses mirror the JS object
shapes: `ready` and `failed` carry an optional expiry, `pending` carries
only the shared promise (no expiry field at all), `timeout_pending`
always carries `startedAt` and `expiresAt`.  Payload data is abstracted
to `Nat`, promises to their identifier. -/
inductive CacheEntry where
  | ready (data : Nat) (expiresAt : Option Int)
  | pending (promise : Nat)
  | failed (error : JsError) (expiresAt : Option Int)
  | timeoutPending (error : JsError) (startedAt : Int) (expiresAt : Int)
deriving DecidableEq

abbrev NzbdavCache := List (String × CacheEntry)

def entryExpiresAt : CacheEntry → Option Int
  | .ready _ e => e
  | .pending _ => none
  | .failed _ e => e
  | .timeoutPending _ _ e => some e

/-- `entry.expiresAt && entry.expiresAt <= now` (note `0` is falsy in JS). -/
def entryExpired (e : CacheEntry) (now : Int) : Bool :=
  match entryExpiresAt e with
  | some t => t != 0 && decide (t ≤ now)
  | none => false

/-- `cleanupNzbdavCache`: a no-op when the TTL is non-positive, otherwise
deletes every expired entry. -/
def cleanupNzbdavCache (ttl now : Int) (c : NzbdavCache) : NzbdavCache :=
  if ttl ≤ 0 then c else c.filter (fun p => !entryExpired p.2 now)

def TIMEOUT_PENDING_TTL_MS : Int := 10 * 60 * 1000

deriving instance DecidableEq for Except

/-- What one call of `getOrCreateNzbdavStream` produced. -/
inductive ResolveOutcome where
  | fromCache (d : Nat)
  | sharedPromise (p : Nat)
  | raisedCached (e : JsError)
  | freshResult (r : Except JsError Nat)
deriving DecidableEq

structure ResolveResult where
  outcome : ResolveOutcome
  cache : NzbdavCache
  builderInvoked : Bool
deriving DecidableEq

/-- The attempt started when no usable entry exists: set the `pending`
entry, run the builder, and settle the entry according to the builder's
outcome (`ready` on success; `failed` for flagged backend failures;
`timeout_pending` for timeouts; delete for all other errors).
`nowSettle` is the clock value when the builder finishes. -/
def runAttempt (ttl nowSettle : Int) (c1 : NzbdavCache) (key : String)
    (pid : Nat) (builderResult : Except JsError Nat) : ResolveResult :=
  let c2 := assocSet c1 key (.pending pid)
  match builderResult with
  | .ok d =>
    ⟨.freshResult (.ok d),
      assocSet c2 key (.ready d (if 0 < ttl then some (nowSettle + ttl) else none)),
      true⟩
  | .error e =>
    if e.isNzbdavFailure then
      ⟨.freshResult (.error e),
        assocSet c2 key (.failed e (if 0 < ttl then some (nowSettle + ttl) else none)),
        true⟩
    else if isTimeoutError e then
      ⟨.freshResult (.error e),
        assocSet c2 key (.timeoutPending e nowSettle (nowSettle + TIMEOUT_PENDING_TTL_MS)),
        true⟩
    else
      ⟨.freshResult (.error e), assocDelete c2 key, true⟩

/-- `getOrCreateNzbdavStream`: cleanup, then dispatch on the existing
entry's status — `ready` returns the cached data, `pending` returns the
stored promise (the builder is not invoked), `failed` re-raises the
cached error, and `timeout_pending` or a missing entry starts a new
attempt.  `builderResult` is the outcome the builder would produce if it
were invoked; `builderInvoked` records whether it actually was. -/
def getOrCreateNzbdavStream (ttl now nowSettle : Int) (c : NzbdavCache)
    (key : String) (pid : Nat) (builderResult : Except JsError Nat) :
    ResolveResult :=
  let c1 := cleanupNzbdavCache ttl now c
  match assocGet c1 key with
  | some (.ready d _) => ⟨.fromCache d, c1, false⟩
  | some (.pending p) => ⟨.sharedPromise p, c1, false⟩
  | some (.failed e _) => ⟨.raisedCached e, c1, false⟩
  | some (.timeoutPending _ _ _) => runAttempt ttl nowSettle c1 key pid builderResult
  | none => runAttempt ttl nowSettle c1 key pid builderResult

/-! ### Negative cache for failed download URLs (src/unnamed/part_002) -/

structure NegEntry where
  failureReason : String
  errorCode : Option String
  failedAt : Int
  expiresAt : Int
deriving DecidableEq

abbrev NegCache := List (String × NegEntry)

def cleanupNegativeCache (negTtl now : Int) (c : NegCache) : NegCache :=
  if negTtl ≤ 0 then c
  else c.filter (fun p => !(p.2.expiresAt != 0 && decide (p.2.expiresAt ≤ now)))

/-- `isDownloadUrlFailed`: cleanup, then look the URL up, deleting and
reporting nothing when the entry is expired. -/
def isDownloadUrlFailed (negTtl now : Int) (c : NegCache) (url : String) :
    Option NegEntry × NegCache :=
  let c1 := cleanupNegativeCache negTtl now c
  match assocGet c1 url with
  | none => (none, c1)
  | some e =>
    if e.expiresAt != 0 && decide (e.expiresAt ≤ now) then (none, assocDelete c1 url)
    else (some e, c1)

/-- `markDownloadUrlFailed`: stores nothing at all when the negative
cache TTL is non-positive. -/
def markDownloadUrlFailed (negTtl now : Int) (c : NegCache)
    (url reason : String) (errCode : Option String) : NegCache :=
  if negTtl ≤ 0 then c
  else assocSet c url ⟨reason, errCode, now, now + negTtl⟩

/-! ### Persistent instant playback cache (src/src/cache/instantCache.js) -/

/-- `INSTANT_CACHE_TTL_MS`: a finite configured number of days strictly
greater than zero is honoured, anything else (including a configured
zero) falls back to the 7-day default.  `none` models an unset or
non-numeric environment value. -/
def instantCacheTtlMs (raw : Option ℚ) : ℚ :=
  match raw with
  | some r => if 0 < r then r * (24 * 60 * 60 * 1000) else 7 * 24 * 60 * 60 * 1000
  | none => 7 * 24 * 60 * 60 * 1000

/-- An instant cache entry: its `cachedAt` stamp (optional, and `0` is
falsy in JS) plus an abstract payload. -/
structure InstantEntry where
  cachedAt : Option ℚ
  payload : Nat
deriving DecidableEq

abbrev InstantCache := List (String × InstantEntry)

/-- `getInstantCacheEntry` on an already-built key: returns the entry and
the possibly-updated cache; an entry older than a positive TTL is
deleted and reported missing. -/
def getInstantCacheEntry (ttl now : ℚ) (cache : InstantCache) (key : String) :
    Option InstantEntry × InstantCache :=
  match assocGet cache key with
  | none => (none, cache)
  | some e =>
    match e.cachedAt with
    | some c =>
      if c != 0 && decide (0 < ttl) then
        if ttl < now - c then (none, assocDelete cache key)
        else (some e, cache)
      else (some e, cache)
    | none => (some e, cache)

/-! ### Completion watcher: event dispatch (src/src/health/index.js, handleMessage) -/

/-- A parsed inner history slot, with the three alternative spellings of
each property the code probes (`slot.nzo_id || slot.nzoId || slot.NzoId`
and so on). -/
structure Slot where
  nzoIdSnake : Option String
  nzoIdCamel : Option String
  nzoIdPascal : Option String
  statusLower : Option String
  statusUpper : Option String
  failMessageSnake : Option String
  failMessageCamel : Option String
  failMessagePascal : Option String
deriving DecidableEq

/-- A JS `a || b || ...` chain over possibly-missing strings: first
truthy value (a present, non-empty string), else nothing. -/
def firstTruthy : List (Option String) → Option String
  | [] => none
  | some s :: rest => if s = "" then firstTruthy rest else some s
  | none :: rest => firstTruthy rest

def lowerStr (s : String) : String := String.mk (s.data.map Char.toLower)

def nzoIdOf (slot : Slot) : Option String :=
  firstTruthy [slot.nzoIdSnake, slot.nzoIdCamel, slot.nzoIdPascal]

/-- `(slot.status || slot.Status || '').toString().toLowerCase()` -/
def statusOf (slot : Slot) : String :=
  lowerStr ((firstTruthy [slot.statusLower, slot.statusUpper]).getD "")

/-- `slot.fail_message || slot.failMessage || slot.FailMessage || 'Unknown NZBDav error'` -/
def failMessageOf (slot : Slot) : String :=
  (firstTruthy [slot.failMessageSnake, slot.failMessageCamel, slot.failMessagePascal]).getD
    "Unknown NZBDav error"

/-- A registered waiter, identified by its timeout timer. -/
structure Waiter where
  timer : Nat
deriving DecidableEq

abbrev Waiters := List (String × Waiter)

/-- The flagged failure built for a `failed` history event. -/
structure WsFailError where
  message : String
  isNzbdavFailure : Bool
  failureMessage : String
  nzoId : String
deriving DecidableEq

inductive WaiterAction where
  | resolved (slot : Slot)
  | rejected (e : WsFailError)
  | noAction
deriving DecidableEq

structure HandleResult where
  waiters : Waiters
  action : WaiterAction
  clearedTimers : List Nat
deriving DecidableEq

/-- An inbound WebSocket frame after the two JSON-parse steps:
`unparsable` models outer parse failure, an inner `none` message models
inner parse failure. -/
inductive Frame where
  | unparsable
  | parsed (topic : String) (msg : Option Slot)
deriving DecidableEq

/-- `handleMessage`: ignore non-`ha` topics, unparsable frames and
untracked or missing job ids; for a tracked job id the waiter's timer is
cleared and the waiter removed from the map, then the status decides
whether its promise is resolved, rejected with a flagged failure, or
left unsettled. -/
def handleMessage (f : Frame) (ws : Waiters) : HandleResult :=
  match f with
  | .unparsable => ⟨ws, .noAction, []⟩
  | .parsed topic msg =>
    if topic ≠ "ha" then ⟨ws, .noAction, []⟩ else
    match msg with
    | none => ⟨ws, .noAction, []⟩
    | some slot =>
      match nzoIdOf slot with
      | none => ⟨ws, .noAction, []⟩
      | some nzo =>
        let status := statusOf slot
        match assocGet ws nzo with
        | none => ⟨ws, .noAction, []⟩
        | some w =>
          let ws' := assocDelete ws nzo
          if status = "completed" then ⟨ws', .resolved slot, [w.timer]⟩
          else if status = "failed" then
            let fm := failMessageOf slot
            ⟨ws', .rejected ⟨"[NZBDAV] NZB failed: " ++ fm, true, fm, nzo⟩, [w.timer]⟩
          else ⟨ws', .noAction, [w.timer]⟩

/-! ### Completion watcher: reconnect backoff (src/src/health/index.js) -/

def MAX_RECONNECT_DELAY : Int := 30000

/-- The module-level reconnect state: the next delay to use and whether a
reconnect timer is currently scheduled. -/
structure WsState where
  reconnectDelay : Int
  timerActive : Bool
deriving DecidableEq

def initialWsState : WsState := ⟨1000, false⟩

/-- `scheduleReconnect`: a no-op while a timer is pending; otherwise
schedule at the current delay and double it, capped at 30000 ms. -/
def scheduleReconnect (s : WsState) : Option Int × WsState :=
  if s.timerActive then (none, s)
  else (some s.reconnectDelay, ⟨min (s.reconnectDelay * 2) MAX_RECONNECT_DELAY, true⟩)

/-- The scheduled timer firing (it sets `reconnectTimer = null` and calls
`connect`). -/
def timerFire (s : WsState) : WsState := ⟨s.reconnectDelay, false⟩

/-- The `open` handler of a successful reconnect: reset the delay to the
1000 ms base. -/
def onOpen (s : WsState) : WsState := ⟨1000, s.timerActive⟩

/-- State after `n` consecutive connection failures, each failure being a
`close` event (which schedules a reconnect) followed by the timer firing
into another failing `connect`. -/
def failureState : Nat → WsState
  | 0 => initialWsState
  | n + 1 => timerFire (scheduleReconnect (failureState n)).2

/-- The delay at which the reconnect following the `(n+1)`-st consecutive
failure is scheduled. -/
def reconnectDelayAt (n : Nat) : Option Int :=
  (scheduleReconnect (failureState n)).1

/-! ### Smart history matching (src/src/blocklist/index.js) -/

def QUALITY_TOKENS : List String :=
  ["480p", "576p", "720p", "1080p", "1080i", "2160p", "4k", "uhd",
   "bluray", "bdrip", "brrip", "dvdrip", "dvdscr", "hdtv", "pdtv", "sdtv",
   "webrip", "web-dl", "webdl", "web", "hdrip", "hdcam", "cam", "ts", "tc",
   "screener", "scr", "r5", "dvd", "bd", "remux",
   "x264", "x265", "h264", "h265", "hevc", "avc", "xvid", "divx", "mpeg",
   "hdr", "hdr10", "hdr10+", "dv", "dolby", "vision", "hlg",
   "aac", "ac3", "dts", "dts-hd", "truehd", "atmos", "flac", "mp3", "dd5", "ddp5",
   "3d", "hsbs", "hou", "sbs",
   "proper", "repack", "rerip", "internal", "extended", "unrated", "directors", "cut",
   "dubbed", "dual", "multi", "subbed", "hardcoded", "hc"]

def LANGUAGE_TOKENS : List String :=
  ["english", "eng", "en", "french", "fr", "german", "de", "spanish", "es",
   "italian", "ita", "it", "dutch", "nl", "portuguese", "pt", "russian", "ru",
   "japanese", "jp", "korean", "kr", "chinese", "cn", "hindi", "hin",
   "nordic", "swedish", "danish", "norwegian", "finnish"]

def sourceTokenList : List String :=
  ["bluray", "bdrip", "brrip", "dvdrip", "webrip", "web-dl", "webdl", "web",
   "hdtv", "remux"]

def codecTokenList : List String :=
  ["x264", "x265", "h264", "h265", "hevc", "avc", "xvid", "divx"]

/-- JS `String.prototype.trim` on the character list. -/
def charTrim (l : List Char) : List Char :=
  ((l.dropWhile Char.isWhitespace).reverse.dropWhile Char.isWhitespace).reverse

/-- The container/archive extensions stripped by
`/\.(nzb|zip|rar|mkv|avi|mp4)$/i` (each is 4 characters long). -/
def videoExtList : List (List Char) :=
  [".nzb".data, ".zip".data, ".rar".data, ".mkv".data, ".avi".data, ".mp4".data]

def stripExtChars (l : List Char) : List Char :=
  if videoExtList.any (fun e => List.isSuffixOf e (l.map Char.toLower)) then
    l.take (l.length - 4)
  else l

/-- Characters folded to spaces by the normalization chain
(`[._-]+` runs, the bracket class and `\s+` all end up as token
separators). -/
def isSepChar (c : Char) : Bool :=
  c = '.' || c = '_' || c = '-' || c = '(' || c = ')' || c = '[' || c = ']' ||
  c = Char.ofNat 123 || c = Char.ofNat 125 || c.isWhitespace

/-- Split a character list on spaces, dropping empty chunks. -/
def splitSpaces (acc : List Char) : List Char → List String
  | [] => if acc.isEmpty then [] else [String.mk acc.reverse]
  | c :: cs =>
    if c = ' ' then
      if acc.isEmpty then splitSpaces [] cs
      else String.mk acc.reverse :: splitSpaces [] cs
    else splitSpaces (c :: acc) cs

/-- The token list `normalized.split(' ')` of `parseReleaseTokens`
(JS yields `[""]` when the normalized title is empty). -/
def tokenizeRelease (title : String) : List String :=
  let raw := charTrim title.data
  let cleaned := (stripExtChars raw).map (fun c => if isSepChar c then ' ' else c)
  let parts := splitSpaces [] cleaned
  if parts.isEmpty then [""] else parts

/-- `/^(19|20)\d{2}$/` -/
def isYearToken (t : String) : Bool :=
  match t.data with
  | [c1, c2, c3, c4] =>
    ((c1 = '1' && c2 = '9') || (c1 = '2' && c2 = '0')) && c3.isDigit && c4.isDigit
  | _ => false

/-- `/^(480|576|720|1080|2160)[pi]?$/i` applied to the lowercased token. -/
def isResolutionToken (t : String) : Bool :=
  ["480", "576", "720", "1080", "2160"].any
    (fun b => t = b || t = b ++ "p" || t = b ++ "i")

/-- `lower.replace(/[pi]$/, 'p')` -/
def resolutionNormalize (t : String) : String :=
  match t.data.getLast? with
  | some c => if c = 'p' || c = 'i' then String.mk (t.data.dropLast ++ ['p']) else t
  | none => t

/-- `/^\d+$/` -/
def isAllDigits (t : String) : Bool :=
  !t.data.isEmpty && t.data.all Char.isDigit

/-- `/[a-z]/i` -/
def hasAlpha (t : String) : Bool := t.data.any Char.isAlpha

structure ParsedRelease where
  titleWords : List String
  year : Option String
  resolution : Option String
  source : Option String
  codec : Option String
  group : Option String
  raw : String
deriving DecidableEq

structure ParseState where
  titleWords : List String
  year : Option String
  resolution : Option String
  source : Option String
  codec : Option String
  group : Option String
  foundQualityMarker : Bool
deriving DecidableEq

def initParseState : ParseState := ⟨[], none, none, none, none, none, false⟩

/-- One iteration of the token loop of `parseReleaseTokens`.  `isLast`
tells whether this is the final token (the only place the release-group
tag can be captured). -/
def parseStep (s : ParseState) (token : String) (isLast : Bool) : ParseState :=
  let lower := lowerStr token
  if s.year.isNone && isYearToken token then
    { s with year := some token, foundQualityMarker := true }
  else if s.resolution.isNone && isResolutionToken lower then
    { s with resolution := some (resolutionNormalize lower), foundQualityMarker := true }
  else if s.resolution.isNone && (lower = "4k" || lower = "uhd") then
    { s with resolution := some "2160p", foundQualityMarker := true }
  else if QUALITY_TOKENS.contains lower then
    let s1 := { s with foundQualityMarker := true }
    let s2 := if s1.source.isNone && sourceTokenList.contains lower then
        { s1 with source := some lower } else s1
    let s3 := if s2.codec.isNone && codecTokenList.contains lower then
        { s2 with codec := some lower } else s2
    s3
  else if LANGUAGE_TOKENS.contains lower then s
  else
    let s1 :=
      if !s.foundQualityMarker then
        if token.data.length > 1 && !isAllDigits token then
          { s with titleWords := s.titleWords ++ [lower] }
        else if token.data.length = 1 && hasAlpha token then
          { s with titleWords := s.titleWords ++ [lower] }
        else if isAllDigits token && token.data.length ≤ 2 then
          { s with titleWords := s.titleWords ++ [lower] }
        else s
      else s
    if isLast then { s1 with group := some lower } else s1

def parseTokensLoop (s : ParseState) : List String → ParseState
  | [] => s
  | t :: rest => parseTokensLoop (parseStep s t rest.isEmpty) rest

/-- `parseReleaseTokens` -/
def parseReleaseTokens (title : String) : ParsedRelease :=
  if title = "" then ⟨[], none, none, none, none, none, ""⟩
  else
    let s := parseTokensLoop initParseState (tokenizeRelease title)
    ⟨s.titleWords, s.year, s.resolution, s.source, s.codec, s.group,
      String.mk (charTrim title.data)⟩

/-- JS `Set` built from a list: first occurrences, in insertion order. -/
def dedupKeepFirst (seen : List String) : List String → List String
  | [] => []
  | x :: xs =>
    if seen.contains x then dedupKeepFirst seen xs
    else x :: dedupKeepFirst (x :: seen) xs

/-- `calculateWordSimilarity`: Jaccard similarity of the two word sets,
in exact rational arithmetic. -/
def calculateWordSimilarity (w1 w2 : List String) : ℚ :=
  if w1.isEmpty || w2.isEmpty then 0
  else
    let s1 := dedupKeepFirst [] w1
    let s2 := dedupKeepFirst [] w2
    let inter : ℕ := (s1.filter (fun w => s2.contains w)).length
    let unionSize : ℚ := (s1.length : ℚ) + (s2.length : ℚ) - (inter : ℚ)
    if 0 < unionSize then (inter : ℚ) / unionSize else 0

/-- Truthiness of an optional JS string (`undefined` and `''` are falsy). -/
def optTruthy (o : Option String) : Bool :=
  match o with
  | some s => s != ""
  | none => false

/-- Flattened result of `calculateReleaseSimilarity` (the `details`
object keeps `titleSimilarity`; the word lists are recoverable from the
inputs). -/
structure SimilarityResult where
  score : ℚ
  titleMatch : Bool
  yearMatch : Bool
  yearMismatch : Bool
  allWords1InWords2 : Bool
  allWords2InWords1 : Bool
  titleSimilarity : ℚ
deriving DecidableEq

def bothYearsEqual (p1 p2 : ParsedRelease) : Bool :=
  optTruthy p1.year && optTruthy p2.year && p1.year == p2.year

def bothYearsDiffer (p1 p2 : ParsedRelease) : Bool :=
  optTruthy p1.year && optTruthy p2.year && p1.year != p2.year

/-- `calculateReleaseSimilarity` -/
def calculateReleaseSimilarity (p1 p2 : ParsedRelease) : SimilarityResult :=
  let titleSimilarity := calculateWordSimilarity p1.titleWords p2.titleWords
  let yearMatch := bothYearsEqual p1 p2
  let yearMismatch := bothYearsDiffer p1 p2
  let score1 := if yearMatch then min 1 (titleSimilarity + 1/10) else titleSimilarity
  let score2 := if yearMismatch then max 0 (score1 - 1/5) else score1
  let a12 := !p1.titleWords.isEmpty &&
    p1.titleWords.all (fun w => p2.titleWords.contains w)
  let a21 := !p2.titleWords.isEmpty &&
    p2.titleWords.all (fun w => p1.titleWords.contains w)
  ⟨score2, decide (titleSimilarity ≥ 4/5) || a12 || a21, yearMatch, yearMismatch,
    a12, a21, titleSimilarity⟩

/-- A history entry: optional `jobName` plus an abstract payload. -/
structure HistoryEntry where
  jobName : Option String
  payload : Nat
deriving DecidableEq

structure MatchItem where
  entry : HistoryEntry
  normalizedTitle : String
  similarity : ℚ
  details : SimilarityResult
deriving DecidableEq

/-- `entry.jobName || normalizedTitle` -/
def historyLookupTitle (normalizedTitle : String) (e : HistoryEntry) : String :=
  match e.jobName with
  | some s => if s = "" then normalizedTitle else s
  | none => normalizedTitle

/-- The similarity computed for one history map binding:
`calculateReleaseSimilarity(searchParsed, parseReleaseTokens(entry.jobName || normalizedTitle))`. -/
def histSim (searchParsed : ParsedRelease) (kv : String × HistoryEntry) :
    SimilarityResult :=
  calculateReleaseSimilarity searchParsed
    (parseReleaseTokens (historyLookupTitle kv.1 kv.2))

/-- The `isMatch` decision of `findMatchingHistoryItems`: in strict mode
(`requireAllWords`) only "all search words in history title"; in fuzzy
mode the similarity threshold or either asymmetric containment. -/
def isMatchCond (searchParsed : ParsedRelease) (minSimilarity : ℚ)
    (requireAllWords : Bool) (kv : String × HistoryEntry) : Bool :=
  if requireAllWords then (histSim searchParsed kv).allWords1InWords2
  else decide ((histSim searchParsed kv).score ≥ minSimilarity) ||
    (histSim searchParsed kv).allWords1InWords2 ||
    (histSim searchParsed kv).allWords2InWords1

/-- The match decision of `findMatchingHistoryItems` for a single history
map binding, returning the pushed match record when it is a match. -/
def matchItemOf (searchParsed : ParsedRelease) (minSimilarity : ℚ)
    (requireAllWords : Bool) (kv : String × HistoryEntry) : Option MatchItem :=
  if isMatchCond searchParsed minSimilarity requireAllWords kv then
    some ⟨kv.2, kv.1, (histSim searchParsed kv).score, histSim searchParsed kv⟩
  else none

def scoreDescRel (a b : MatchItem) : Prop := b.similarity ≤ a.similarity

instance : DecidableRel scoreDescRel :=
  fun a b => inferInstanceAs (Decidable (b.similarity ≤ a.similarity))

instance : IsTotal MatchItem scoreDescRel :=
  ⟨fun a b => le_total b.similarity a.similarity⟩

instance : IsTrans MatchItem scoreDescRel :=
  ⟨fun _ _ _ h1 h2 => le_trans h2 h1⟩

/-- `matches.sort((a, b) => b.similarity - a.similarity)` — a stable sort
by descending score. -/
def sortByScoreDesc (l : List MatchItem) : List MatchItem :=
  l.insertionSort scoreDescRel

/-- `findMatchingHistoryItems` -/
def findMatchingHistoryItems (searchTitle : String)
    (historyMap : List (String × HistoryEntry)) (minSimilarity : ℚ)
    (requireAllWords : Bool) : List MatchItem :=
  if searchTitle = "" ∨ historyMap = [] then []
  else
    let searchParsed := parseReleaseTokens searchTitle
    if searchParsed.titleWords = [] then []
    else
      sortByScoreDesc
        (historyMap.filterMap (matchItemOf searchParsed minSimilarity requireAllWords))

/-! ## Helper lemmas about the association-list maps -/

theorem assocGet_filter_some {β : Type} (p : String × β → Bool)
    (c : List (String × β)) (k : String) (v : β)
    (h : assocGet c k = some v) (hp : p (k, v) = true) :
    assocGet (c.filter p) k = some v := by
  induction c with
  | nil => simp [assocGet] at h
  | cons hd tl ih =>
    obtain ⟨k', v'⟩ := hd
    by_cases hk : k' = k
    · subst hk
      simp only [assocGet, if_pos, Option.some.injEq] at h
      subst h
      simp [List.filter, hp, assocGet]
    · simp only [assocGet, if_neg hk] at h
      by_cases hkeep : p (k', v') = true
      · simpa [List.filter, hkeep, assocGet, hk] using ih h
      · simp only [Bool.not_eq_true] at hkeep
        simpa [List.filter, hkeep] using ih h

theorem assocGet_filter_none {β : Type} (p : String × β → Bool)
    (c : List (String × β)) (k : String)
    (h : assocGet c k = none) :
    assocGet (c.filter p) k = none := by
  induction c with
  | nil => simp [assocGet]
  | cons hd tl ih =>
    obtain ⟨k', v'⟩ := hd
    by_cases hk : k' = k
    · subst hk; simp [assocGet] at h
    · simp only [assocGet, if_neg hk] at h
      by_cases hkeep : p (k', v') = true
      · simpa [List.filter, hkeep, assocGet, hk] using ih h
      · simp only [Bool.not_eq_true] at hkeep
        simpa [List.filter, hkeep] using ih h

theorem cleanup_get_some (ttl now : Int) (c : NzbdavCache) (k : String)
    (e : CacheEntry) (h : assocGet c k = some e)
    (he : entryExpired e now = false) :
    assocGet (cleanupNzbdavCache ttl now c) k = some e := by
  unfold cleanupNzbdavCache
  split
  · exact h
  · exact assocGet_filter_some _ c k e h (by simp [he])

theorem cleanup_get_none (ttl now : Int) (c : NzbdavCache) (k : String)
    (h : assocGet c k = none) :
    assocGet (cleanupNzbdavCache ttl now c) k = none := by
  unfold cleanupNzbdavCache
  split
  · exact h
  · exact assocGet_filter_none _ c k h

theorem runAttempt_builderInvoked (ttl nowSettle : Int) (c1 : NzbdavCache)
    (key : String) (pid : Nat) (br : Except JsError Nat) :
    (runAttempt ttl nowSettle c1 key pid br).builderInvoked = true := by
  cases br
  · simp only [runAttempt]
    split_ifs <;> rfl
  · rfl

/-! ## C1 -/

/-- C1: single-flight resolution — when the cache entry for `key` is in
status `pending`, `getOrCreateNzbdavStream` returns the already-stored
promise of that entry and does not invoke the builder, so every
concurrent caller for the key observes the one in-flight resolution's
outcome. -/
theorem c1_pending_single_flight (ttl now nowSettle : Int) (c : NzbdavCache)
    (key : String) (p pid : Nat) (br : Except JsError Nat)
    (h : assocGet c key = some (.pending p)) :
    (getOrCreateNzbdavStream ttl now nowSettle c key pid br).outcome =
      .sharedPromise p ∧
    (getOrCreateNzbdavStream ttl now nowSettle c key pid br).builderInvoked =
      false := by
  have hclean : assocGet (cleanupNzbdavCache ttl now c) key = some (.pending p) :=
    cleanup_get_some ttl now c key _ h rfl
  simp [getOrCreateNzbdavStream, hclean]

theorem c1_pending_single_flight_witness :
    assocGet [("k", CacheEntry.pending 5)] "k" = some (.pending 5) ∧
    (getOrCreateNzbdavStream 86400000 10 20 [("k", .pending 5)] "k" 9
        (.ok 3)).outcome = .sharedPromise 5 ∧
    (getOrCreateNzbdavStream 86400000 10 20 [("k", .pending 5)] "k" 9
        (.ok 3)).builderInvoked = false :=
  ⟨by decide,
    (c1_pending_single_flight 86400000 10 20 [("k", .pending 5)] "k" 5 9 (.ok 3)
      (by decide)).1,
    (c1_pending_single_flight 86400000 10 20 [("k", .pending 5)] "k" 5 9 (.ok 3)
      (by decide)).2⟩

/-! ## C2 -/

/-- C2: error-path transitions — (i) a non-expired `failed` entry makes
the call re-raise the cached error without invoking the builder; (ii) a
resolution attempt failing with a timeout error leaves the entry in
status `timeout_pending` (not `failed`); (iii) a call finding a live
`timeout_pending` entry is allowed to start a new attempt (the builder
is invoked). -/
theorem c2_error_paths (ttl now nowSettle : Int) (key : String) (pid : Nat) :
    (∀ (c : NzbdavCache) (e : JsError) (exp : Option Int)
        (br : Except JsError Nat),
      assocGet c key = some (.failed e exp) →
      entryExpired (.failed e exp) now = false →
        (getOrCreateNzbdavStream ttl now nowSettle c key pid br).outcome =
          .raisedCached e ∧
        (getOrCreateNzbdavStream ttl now nowSettle c key pid br).builderInvoked =
          false) ∧
    (∀ (c : NzbdavCache) (e : JsError),
      assocGet c key = none → e.isNzbdavFailure = false → isTimeoutError e = true →
        assocGet (getOrCreateNzbdavStream ttl now nowSettle c key pid
            (.error e)).cache key =
          some (.timeoutPending e nowSettle (nowSettle + TIMEOUT_PENDING_TTL_MS))) ∧
    (∀ (c : NzbdavCache) (e : JsError) (st ex : Int) (br : Except JsError Nat),
      assocGet c key = some (.timeoutPending e st ex) → now < ex →
        (getOrCreateNzbdavStream ttl now nowSettle c key pid br).builderInvoked =
          true) := by
  refine ⟨?_, ?_, ?_⟩
  · intro c e exp br h he
    have hclean := cleanup_get_some ttl now c key _ h he
    simp [getOrCreateNzbdavStream, hclean]
  · intro c e h hf ht
    have hclean := cleanup_get_none ttl now c key h
    simp [getOrCreateNzbdavStream, hclean, runAttempt, hf, ht, assocGet_set_self]
  · intro c e st ex br h hex
    have hlive : entryExpired (.timeoutPending e st ex) now = false := by
      simp [entryExpired, entryExpiresAt, not_le.mpr hex]
    have hclean := cleanup_get_some ttl now c key _ h hlive
    simp [getOrCreateNzbdavStream, hclean, runAttempt_builderInvoked]

theorem c2_error_paths_witness :
    (assocGet [("k", CacheEntry.failed ⟨"boom", none, true⟩ (some 50))] "k" =
        some (.failed ⟨"boom", none, true⟩ (some 50)) ∧
      entryExpired (.failed ⟨"boom", none, true⟩ (some 50)) 10 = false ∧
      (getOrCreateNzbdavStream 86400000 10 20
          [("k", .failed ⟨"boom", none, true⟩ (some 50))] "k" 9 (.ok 3)).outcome =
        .raisedCached ⟨"boom", none, true⟩) ∧
    (assocGet ([] : NzbdavCache) "k" = none ∧
      (⟨"Timeout waiting", none, false⟩ : JsError).isNzbdavFailure = false ∧
      isTimeoutError ⟨"Timeout waiting", none, false⟩ = true ∧
      assocGet (getOrCreateNzbdavStream 86400000 10 20 [] "k" 9
          (.error ⟨"Timeout waiting", none, false⟩)).cache "k" =
        some (.timeoutPending ⟨"Timeout waiting", none, false⟩ 20 600020)) ∧
    (assocGet [("k", CacheEntry.timeoutPending ⟨"t", none, false⟩ 1 90)] "k" =
        some (.timeoutPending ⟨"t", none, false⟩ 1 90) ∧
      (10 : Int) < 90 ∧
      (getOrCreateNzbdavStream 86400000 10 20
          [("k", .timeoutPending ⟨"t", none, false⟩ 1 90)] "k" 9
          (.ok 3)).builderInvoked = true) :=
  ⟨⟨by decide, by decide,
      ((c2_error_paths 86400000 10 20 "k" 9).1
        [("k", .failed ⟨"boom", none, true⟩ (some 50))] ⟨"boom", none, true⟩
        (some 50) (.ok 3) (by decide) (by decide)).1⟩,
    ⟨by decide, by decide, by decide,
      (c2_error_paths 86400000 10 20 "k" 9).2.1 [] ⟨"Timeout waiting", none, false⟩
        (by decide) (by decide) (by decide)⟩,
    ⟨by decide, by decide,
      (c2_error_paths 86400000 10 20 "k" 9).2.2
        [("k", .timeoutPending ⟨"t", none, false⟩ 1 90)] ⟨"t", none, false⟩ 1 90
        (.ok 3) (by decide) (by decide)⟩⟩

/-! ## C10 -/

/-- C10: an attempt failing with an error that is neither a flagged
backend failure nor a timeout deletes the cache entry entirely (the
error is not cached) and the next resolve call for the same key invokes
the builder afresh. -/
theorem c10_other_errors_uncached (ttl now nowSettle now2 ns2 : Int)
    (c : NzbdavCache) (key : String) (pid pid2 : Nat) (e : JsError)
    (br2 : Except JsError Nat)
    (h : assocGet c key = none) (hf : e.isNzbdavFailure = false)
    (ht : isTimeoutError e = false) :
    (getOrCreateNzbdavStream ttl now nowSettle c key pid (.error e)).outcome =
      .freshResult (.error e) ∧
    assocGet (getOrCreateNzbdavStream ttl now nowSettle c key pid
        (.error e)).cache key = none ∧
    (getOrCreateNzbdavStream ttl now2 ns2
        (getOrCreateNzbdavStream ttl now nowSettle c key pid (.error e)).cache
        key pid2 br2).builderInvoked = true := by
  have hclean := cleanup_get_none ttl now c key h
  have houtcache :
      (getOrCreateNzbdavStream ttl now nowSettle c key pid (.error e)).outcome =
        .freshResult (.error e) ∧
      assocGet (getOrCreateNzbdavStream ttl now nowSettle c key pid
          (.error e)).cache key = none := by
    simp [getOrCreateNzbdavStream, hclean, runAttempt, hf, ht, assocGet_delete_self]
  obtain ⟨h1, h2⟩ := houtcache
  refine ⟨h1, h2, ?_⟩
  generalize hg :
    (getOrCreateNzbdavStream ttl now nowSettle c key pid (Except.error e)).cache =
      c2 at h2 ⊢
  have hclean2 := cleanup_get_none ttl now2 c2 key h2
  simp [getOrCreateNzbdavStream, hclean2, runAttempt_builderInvoked]

theorem c10_other_errors_uncached_witness :
    assocGet ([] : NzbdavCache) "k" = none ∧
    (⟨"ECONNREFUSED", some "ECONNREFUSED", false⟩ : JsError).isNzbdavFailure = false ∧
    isTimeoutError ⟨"ECONNREFUSED", some "ECONNREFUSED", false⟩ = false ∧
    assocGet (getOrCreateNzbdavStream 86400000 10 20 [] "k" 9
        (.error ⟨"ECONNREFUSED", some "ECONNREFUSED", false⟩)).cache "k" = none ∧
    (getOrCreateNzbdavStream 86400000 30 40
        (getOrCreateNzbdavStream 86400000 10 20 [] "k" 9
          (.error ⟨"ECONNREFUSED", some "ECONNREFUSED", false⟩)).cache
        "k" 11 (.ok 3)).builderInvoked = true :=
  ⟨by decide, by decide, by decide,
    (c10_other_errors_uncached 86400000 10 20 30 40 [] "k" 9 11
      ⟨"ECONNREFUSED", some "ECONNREFUSED", false⟩ (.ok 3)
      (by decide) (by decide) (by decide)).2.1,
    (c10_other_errors_uncached 86400000 10 20 30 40 [] "k" 9 11
      ⟨"ECONNREFUSED", some "ECONNREFUSED", false⟩ (.ok 3)
      (by decide) (by decide) (by decide)).2.2⟩

/-! ## C8 -/

/-- C8 counterexample: with a main-cache TTL of zero, a resolution that
fails with a timeout error still writes a `timeout_pending` entry
carrying the fixed 10-minute expiry timestamp — so not every entry
written by `getOrCreateNzbdavStream` under a zero TTL "carries no
expiry". -/
theorem c8_counterexample :
    (assocGet (getOrCreateNzbdavStream 0 0 5 [] "k" 1
        (.error ⟨"Timeout waiting", none, false⟩)).cache "k").map entryExpiresAt =
      some (some 600005) := by decide

/-- C8 (amended): with a negative-cache TTL of zero,
`markDownloadUrlFailed` stores nothing, so `isDownloadUrlFailed` reports
no failure afterward; with a main-cache TTL of zero, expiry cleanup is a
no-op and the `ready` and `failed` entries written by
`getOrCreateNzbdavStream` carry no expiry (while `timeout_pending`
entries still carry the fixed 10-minute timeout-pending stamp). -/
theorem c8_zero_ttl_divergence :
    (∀ (now : Int) (negC : NegCache) (url r : String) (code : Option String),
      markDownloadUrlFailed 0 now negC url r code = negC) ∧
    (∀ (now now2 : Int) (negC : NegCache) (url r : String) (code : Option String),
      assocGet negC url = none →
        (isDownloadUrlFailed 0 now2
          (markDownloadUrlFailed 0 now negC url r code) url).1 = none) ∧
    (∀ (now : Int) (c : NzbdavCache), cleanupNzbdavCache 0 now c = c) ∧
    (∀ (now nowSettle : Int) (c : NzbdavCache) (key : String) (pid d : Nat),
      assocGet c key = none →
        assocGet (getOrCreateNzbdavStream 0 now nowSettle c key pid
            (.ok d)).cache key = some (.ready d none)) ∧
    (∀ (now nowSettle : Int) (c : NzbdavCache) (key : String) (pid : Nat)
        (e : JsError),
      assocGet c key = none → e.isNzbdavFailure = true →
        assocGet (getOrCreateNzbdavStream 0 now nowSettle c key pid
            (.error e)).cache key = some (.failed e none)) ∧
    (∀ (now nowSettle : Int) (c : NzbdavCache) (key : String) (pid : Nat)
        (e : JsError),
      assocGet c key = none → e.isNzbdavFailure = false → isTimeoutError e = true →
        assocGet (getOrCreateNzbdavStream 0 now nowSettle c key pid
            (.error e)).cache key =
          some (.timeoutPending e nowSettle (nowSettle + TIMEOUT_PENDING_TTL_MS))) := by
  refine ⟨?_, ?_, ?_, ?_, ?_, ?_⟩
  · intro now negC url r code
    simp [markDownloadUrlFailed]
  · intro now now2 negC url r code h
    simp [markDownloadUrlFailed, isDownloadUrlFailed, cleanupNegativeCache, h]
  · intro now c
    simp [cleanupNzbdavCache]
  · intro now nowSettle c key pid d h
    have hclean := cleanup_get_none 0 now c key h
    simp [getOrCreateNzbdavStream, hclean, runAttempt, assocGet_set_self]
  · intro now nowSettle c key pid e h hf
    have hclean := cleanup_get_none 0 now c key h
    simp [getOrCreateNzbdavStream, hclean, runAttempt, hf, assocGet_set_self]
  · intro now nowSettle c key pid e h hf ht
    have hclean := cleanup_get_none 0 now c key h
    simp [getOrCreateNzbdavStream, hclean, runAttempt, hf, ht, assocGet_set_self]

theorem c8_zero_ttl_divergence_witness :
    markDownloadUrlFailed 0 7 [] "u" "bad" none = [] ∧
    assocGet ([] : NegCache) "u" = none ∧
    (isDownloadUrlFailed 0 9 (markDownloadUrlFailed 0 7 [] "u" "bad" none) "u").1 =
      none ∧
    assocGet ([] : NzbdavCache) "k" = none ∧
    assocGet (getOrCreateNzbdavStream 0 10 20 [] "k" 9 (.ok 3)).cache "k" =
      some (.ready 3 none) :=
  ⟨(c8_zero_ttl_divergence.1 7 [] "u" "bad" none),
    by decide,
    (c8_zero_ttl_divergence.2.1 7 9 [] "u" "bad" none (by decide)),
    by decide,
    (c8_zero_ttl_divergence.2.2.2.1 10 20 [] "k" 9 3 (by decide))⟩

/-! ## C4 -/

/-- C4 counterexample: a configured instant-cache TTL of zero does not
mean "never expire" — the configuration parser maps it to the 7-day
default (604800000 ms), under which an entry cached at time 1 is expired
at time 604800002 and the lookup returns no entry. -/
theorem c4_counterexample :
    instantCacheTtlMs (some 0) = 604800000 ∧
    (getInstantCacheEntry (instantCacheTtlMs (some 0)) 604800002
        [("k", ⟨some 1, 0⟩)] "k").1 = none := by
  have h : instantCacheTtlMs (some 0) = 604800000 := by norm_num [instantCacheTtlMs]
  refine ⟨h, ?_⟩
  rw [h]
  norm_num [getInstantCacheEntry, assocGet]

/-- C4 (amended): every instant-cache entry expires independently per the
effective TTL — a lookup of an entry older than a positive TTL deletes
it and returns no entry, and a non-positive effective TTL disables
expiry in lookups — but the configuration maps a configured TTL of zero
to the 7-day default rather than to "never expire". -/
theorem c4_instant_cache_expiry (ttl now : ℚ) (cache : InstantCache)
    (key : String) :
    (∀ (e : InstantEntry) (cAt : ℚ),
      assocGet cache key = some e → e.cachedAt = some cAt → cAt ≠ 0 →
      0 < ttl → ttl < now - cAt →
        (getInstantCacheEntry ttl now cache key).1 = none ∧
        assocGet (getInstantCacheEntry ttl now cache key).2 key = none) ∧
    (ttl ≤ 0 → (getInstantCacheEntry ttl now cache key).1 = assocGet cache key) ∧
    instantCacheTtlMs (some 0) = 7 * 24 * 60 * 60 * 1000 := by
  refine ⟨?_, ?_, by norm_num [instantCacheTtlMs]⟩
  · intro e cAt hget hc h0 hpos hold
    simp [getInstantCacheEntry, hget, hc, h0, hpos, hold, assocGet_delete_self]
  · intro hle
    have hnot : ¬ (0 : ℚ) < ttl := not_lt.mpr hle
    cases hget : assocGet cache key with
    | none => simp [getInstantCacheEntry, hget]
    | some e =>
      cases hc : e.cachedAt with
      | none => simp [getInstantCacheEntry, hget, hc]
      | some cAt => simp [getInstantCacheEntry, hget, hc, hnot]

theorem c4_instant_cache_expiry_witness :
    assocGet [("k", (⟨some 1, 0⟩ : InstantEntry))] "k" = some ⟨some 1, 0⟩ ∧
    (⟨some 1, 0⟩ : InstantEntry).cachedAt = some 1 ∧
    (1 : ℚ) ≠ 0 ∧ (0 : ℚ) < 5 ∧ (5 : ℚ) < 100 - 1 ∧
    (getInstantCacheEntry 5 100 [("k", ⟨some 1, 0⟩)] "k").1 = none ∧
    (-3 : ℚ) ≤ 0 ∧
    (getInstantCacheEntry (-3) 100 [("k", ⟨some 1, 0⟩)] "k").1 =
      assocGet [("k", (⟨some 1, 0⟩ : InstantEntry))] "k" :=
  ⟨by decide, rfl, by norm_num, by norm_num, by norm_num,
    ((c4_instant_cache_expiry 5 100 [("k", ⟨some 1, 0⟩)] "k").1 ⟨some 1, 0⟩ 1
      (by decide) rfl (by norm_num) (by norm_num) (by norm_num)).1,
    by norm_num,
    (c4_instant_cache_expiry (-3) 100 [("k", ⟨some 1, 0⟩)] "k").2.1 (by norm_num)⟩

/-! ## C3 -/

/-- C3 counterexample: an event frame with the non-terminal status
"Extracting" for the tracked job id "id1" removes the waiter from the
map and clears its timeout timer — the waiter is neither still
registered nor is its deadline intact, contrary to the claim. -/
theorem c3_counterexample :
    handleMessage
      (.parsed "ha"
        (some ⟨some "id1", none, none, some "Extracting", none, none, none, none⟩))
      [("id1", ⟨7⟩)] = ⟨[], .noAction, [7]⟩ := by decide

/-- C3 (amended): for every event frame on topic "ha" carrying a tracked
job id, the waiter's promise is resolved when the status is "completed"
and rejected with a flagged failure carrying the backend's failure
message when the status is "failed"; for any other status neither
resolution nor rejection occurs (the promise stays unsettled for the
polling path), but in every tracked case the waiter is removed from the
map and its deadline timer is cleared. -/
theorem c3_event_dispatch (ws : Waiters) (slot : Slot) (nzo : String)
    (w : Waiter) (hid : nzoIdOf slot = some nzo)
    (hw : assocGet ws nzo = some w) :
    (statusOf slot = "completed" →
      handleMessage (.parsed "ha" (some slot)) ws =
        ⟨assocDelete ws nzo, .resolved slot, [w.timer]⟩) ∧
    (statusOf slot = "failed" →
      handleMessage (.parsed "ha" (some slot)) ws =
        ⟨assocDelete ws nzo,
          .rejected ⟨"[NZBDAV] NZB failed: " ++ failMessageOf slot, true,
            failMessageOf slot, nzo⟩, [w.timer]⟩) ∧
    (statusOf slot ≠ "completed" → statusOf slot ≠ "failed" →
      handleMessage (.parsed "ha" (some slot)) ws =
        ⟨assocDelete ws nzo, .noAction, [w.timer]⟩) := by
  refine ⟨?_, ?_, ?_⟩
  · intro h1
    simp [handleMessage, hid, hw, h1]
  · intro h1
    simp [handleMessage, hid, hw, h1]
  · intro h1 h2
    simp [handleMessage, hid, hw, h1, h2]

theorem c3_event_dispatch_witness :
    nzoIdOf ⟨some "j", none, none, some "Completed", none, none, none, none⟩ =
      some "j" ∧
    assocGet [("j", (⟨3⟩ : Waiter))] "j" = some ⟨3⟩ ∧
    statusOf ⟨some "j", none, none, some "Completed", none, none, none, none⟩ =
      "completed" ∧
    handleMessage
      (.parsed "ha"
        (some ⟨some "j", none, none, some "Completed", none, none, none, none⟩))
      [("j", ⟨3⟩)] =
      ⟨assocDelete [("j", ⟨3⟩)] "j",
        .resolved ⟨some "j", none, none, some "Completed", none, none, none, none⟩,
        [3]⟩ :=
  ⟨by decide, by decide, by decide,
    (c3_event_dispatch [("j", ⟨3⟩)]
      ⟨some "j", none, none, some "Completed", none, none, none, none⟩ "j" ⟨3⟩
      (by decide) (by decide)).1 (by decide)⟩

/-! ## C9 -/

theorem failureState_closed (n : Nat) :
    failureState n = ⟨min (1000 * 2 ^ n) 30000, false⟩ := by
  induction n with
  | zero => decide
  | succ n ih =>
    rw [failureState, ih]
    have hsched : scheduleReconnect ⟨min (1000 * 2 ^ n) 30000, false⟩ =
        (some (min (1000 * 2 ^ n) 30000),
          ⟨min (min (1000 * 2 ^ n) 30000 * 2) MAX_RECONNECT_DELAY, true⟩) := rfl
    rw [hsched]
    simp only [timerFire, MAX_RECONNECT_DELAY]
    congr 1
    have h : (1000 * 2 ^ (n + 1) : Int) = 1000 * 2 ^ n * 2 := by ring
    rw [h]
    generalize (1000 * 2 ^ n : Int) = m
    omega

/-- C9: reconnect backoff — the first five consecutive connection
failures schedule reconnects after exactly 1000, 2000, 4000, 8000 and
16000 ms; every later consecutive failure schedules at the 30000 ms cap;
a successful reconnect (`open` event) resets the delay to the 1000 ms
base. -/
theorem c9_reconnect_backoff :
    (List.range 5).map reconnectDelayAt =
      [some 1000, some 2000, some 4000, some 8000, some 16000] ∧
    (∀ n : Nat, 5 ≤ n → reconnectDelayAt n = some 30000) ∧
    (∀ s : WsState, (onOpen s).reconnectDelay = 1000) := by
  refine ⟨by decide, ?_, fun s => rfl⟩
  intro n hn
  rw [reconnectDelayAt, failureState_closed]
  show some (min (1000 * 2 ^ n) 30000) = some 30000
  have h32 : (32 : Int) ≤ 2 ^ n := by
    calc (32 : Int) = 2 ^ 5 := by norm_num
    _ ≤ 2 ^ n := pow_le_pow_right₀ (by norm_num) hn
  have hbig : (30000 : Int) ≤ 1000 * 2 ^ n := by nlinarith
  rw [min_eq_right hbig]

theorem c9_reconnect_backoff_witness :
    5 ≤ 7 ∧ reconnectDelayAt 7 = some 30000 :=
  ⟨by norm_num, c9_reconnect_backoff.2.1 7 (by norm_num)⟩

/-! ## C6 -/

theorem list_contains_iff (l : List String) (x : String) :
    l.contains x = true ↔ x ∈ l := by
  simp [List.contains]

theorem dedupKeepFirst_not_mem_seen (l : List String) :
    ∀ (seen : List String) (x : String), x ∈ dedupKeepFirst seen l → x ∉ seen := by
  induction l with
  | nil => intro seen x hx; simp [dedupKeepFirst] at hx
  | cons y ys ih =>
    intro seen x hx
    by_cases hy : seen.contains y = true
    · rw [dedupKeepFirst, if_pos hy] at hx
      exact ih seen x hx
    · rw [dedupKeepFirst, if_neg hy] at hx
      rcases List.mem_cons.mp hx with heq | htail
      · subst heq
        intro hmem
        exact hy ((list_contains_iff seen x).mpr hmem)
      · intro hmem
        exact ih (y :: seen) x htail (List.mem_cons_of_mem y hmem)

theorem dedupKeepFirst_nodup (l : List String) :
    ∀ seen : List String, (dedupKeepFirst seen l).Nodup := by
  induction l with
  | nil => intro seen; simp [dedupKeepFirst]
  | cons y ys ih =>
    intro seen
    by_cases hy : seen.contains y = true
    · rw [dedupKeepFirst, if_pos hy]; exact ih seen
    · rw [dedupKeepFirst, if_neg hy]
      refine List.nodup_cons.mpr ⟨?_, ih (y :: seen)⟩
      intro hmem
      exact dedupKeepFirst_not_mem_seen ys (y :: seen) y hmem (List.mem_cons_self y seen)

theorem dedupKeepFirst_ne_nil (y : String) (ys : List String) :
    dedupKeepFirst [] (y :: ys) ≠ [] := by
  rw [dedupKeepFirst, if_neg (by simp)]
  exact List.cons_ne_nil _ _

theorem jaccard_div_bounds (a b c : ℕ) (hc1 : c ≤ a) (hc2 : c ≤ b) (ha : 1 ≤ a) :
    0 ≤ (c : ℚ) / ((a : ℚ) + (b : ℚ) - (c : ℚ)) ∧
    (c : ℚ) / ((a : ℚ) + (b : ℚ) - (c : ℚ)) ≤ 1 := by
  have hc2q : (c : ℚ) ≤ (b : ℚ) := by exact_mod_cast hc2
  have hc1q : (c : ℚ) ≤ (a : ℚ) := by exact_mod_cast hc1
  have haq : (1 : ℚ) ≤ (a : ℚ) := by exact_mod_cast ha
  have hden : 0 < (a : ℚ) + (b : ℚ) - (c : ℚ) := by linarith
  refine ⟨div_nonneg (by positivity) hden.le, ?_⟩
  rw [div_le_one hden]
  linarith

theorem calculateWordSimilarity_bounds (w1 w2 : List String) :
    0 ≤ calculateWordSimilarity w1 w2 ∧ calculateWordSimilarity w1 w2 ≤ 1 := by
  rw [calculateWordSimilarity]
  split
  · norm_num
  · rename_i hne
    have hw1 : w1 ≠ [] := by
      intro h; subst h; simp at hne
    set s1 := dedupKeepFirst [] w1 with hs1
    set s2 := dedupKeepFirst [] w2 with hs2
    set inter : ℕ := (s1.filter (fun w => s2.contains w)).length with hinter
    have hc1 : inter ≤ s1.length := List.length_filter_le _ _
    have hc2 : inter ≤ s2.length := by
      have hnd : (s1.filter (fun w => s2.contains w)).Nodup :=
        (dedupKeepFirst_nodup w1 []).filter _
      have hsub : (s1.filter (fun w => s2.contains w)) ⊆ s2 := by
        intro x hx
        exact (list_contains_iff s2 x).mp (List.of_mem_filter hx)
      exact (hnd.subperm hsub).length_le
    have ha : 1 ≤ s1.length := by
      rcases w1 with _ | ⟨y, ys⟩
      · exact absurd rfl hw1
      · exact List.length_pos.mpr (dedupKeepFirst_ne_nil y ys)
    have hb := jaccard_div_bounds s1.length s2.length inter hc1 hc2 ha
    have hden : (0 : ℚ) < (s1.length : ℚ) + (s2.length : ℚ) - (inter : ℚ) := by
      have hc2q : (inter : ℚ) ≤ (s2.length : ℚ) := by exact_mod_cast hc2
      have haq : (1 : ℚ) ≤ (s1.length : ℚ) := by exact_mod_cast ha
      linarith
    rw [if_pos hden]
    exact hb

/-- C6: for any two parsed releases the similarity score equals the
Jaccard similarity of their titleWord sets plus a fixed 0.1 bonus when
both parsed years are present and equal, minus a fixed 0.2 penalty when
both are present and differ, clamped to the interval [0,1]; in
particular the score always lies in [0,1]. -/
theorem c6_similarity_score (p1 p2 : ParsedRelease) :
    (calculateReleaseSimilarity p1 p2).score =
      max 0 (min 1 (calculateWordSimilarity p1.titleWords p2.titleWords
        + (if bothYearsEqual p1 p2 then 1/10 else 0)
        - (if bothYearsDiffer p1 p2 then 1/5 else 0))) ∧
    0 ≤ (calculateReleaseSimilarity p1 p2).score ∧
    (calculateReleaseSimilarity p1 p2).score ≤ 1 := by
  obtain ⟨h0, h1⟩ := calculateWordSimilarity_bounds p1.titleWords p2.titleWords
  have hexcl : ¬(bothYearsEqual p1 p2 = true ∧ bothYearsDiffer p1 p2 = true) := by
    rintro ⟨hm, hd⟩
    simp only [bothYearsEqual, Bool.and_eq_true, beq_iff_eq] at hm
    simp only [bothYearsDiffer, Bool.and_eq_true, bne_iff_ne] at hd
    exact hd.2 hm.2
  simp only [calculateReleaseSimilarity]
  set j := calculateWordSimilarity p1.titleWords p2.titleWords with hj
  by_cases hm : bothYearsEqual p1 p2 = true
  · have hd : bothYearsDiffer p1 p2 = false := by
      rcases Bool.eq_false_or_eq_true (bothYearsDiffer p1 p2) with h | h
      · exact absurd ⟨hm, h⟩ hexcl
      · exact h
    rw [hm, hd]
    simp only [if_true, if_false, Bool.false_eq_true]
    have hmin0 : 0 ≤ min 1 (j + 1/10) := le_min (by norm_num) (by linarith)
    refine ⟨?_, ?_, ?_⟩
    · rw [show j + 1/10 - 0 = j + 1/10 by ring, max_eq_right hmin0]
    · exact hmin0
    · exact min_le_left _ _
  · have hm' : bothYearsEqual p1 p2 = false := Bool.eq_false_iff.mpr hm
    by_cases hd : bothYearsDiffer p1 p2 = true
    · rw [hm', hd]
      simp only [if_true, if_false, Bool.false_eq_true]
      have hmin : min 1 (j + 0 - 1/5) = j + 0 - 1/5 := min_eq_right (by linarith)
      refine ⟨?_, ?_, ?_⟩
      · rw [hmin]
        congr 1
        ring
      · exact le_max_left _ _
      · exact max_le (by norm_num) (by linarith)
    · have hd' : bothYearsDiffer p1 p2 = false := Bool.eq_false_iff.mpr hd
      rw [hm', hd']
      simp only [if_false, Bool.false_eq_true]
      refine ⟨?_, h0, h1⟩
      rw [show j + 0 - 0 = j by ring, min_eq_right h1, max_eq_right h0]

/-! ## C7 -/

/-- Modelled from the spec's words ("the final non-quality token is
treated as the release-group tag"): the last tokenized token whose
lowercase form is not in the quality vocabulary, lowercased.  Used only
to compare the spec's description with the code's `parseReleaseTokens`. -/
def specFinalNonQualityGroup (title : String) : Option String :=
  (((tokenizeRelease title).filter
      (fun t => !QUALITY_TOKENS.contains (lowerStr t))).getLast?).map lowerStr

/-- C7 counterexample: for the title "Movie.1080p.GROUP.x264" the final
non-quality token is "group", yet `parseReleaseTokens` extracts no
release group at all, because the group is captured only when the very
last token itself falls outside every marker class. -/
theorem c7_counterexample :
    specFinalNonQualityGroup "Movie.1080p.GROUP.x264" = some "group" ∧
    (parseReleaseTokens "Movie.1080p.GROUP.x264").group = none := by decide

theorem parseStep_last_group (s : ParseState) (t : String)
    (hy : isYearToken t = false)
    (hr : isResolutionToken (lowerStr t) = false)
    (hq : QUALITY_TOKENS.contains (lowerStr t) = false)
    (hl : LANGUAGE_TOKENS.contains (lowerStr t) = false) :
    (parseStep s t true).group = some (lowerStr t) := by
  have h4k : lowerStr t ≠ "4k" := by
    intro h; rw [h] at hq; exact absurd hq (by decide)
  have huhd : lowerStr t ≠ "uhd" := by
    intro h; rw [h] at hq; exact absurd hq (by decide)
  simp only [parseStep, hy, hr, hq, hl, h4k, huhd]
  simp

theorem parseTokensLoop_group_last (t : String)
    (hy : isYearToken t = false)
    (hr : isResolutionToken (lowerStr t) = false)
    (hq : QUALITY_TOKENS.contains (lowerStr t) = false)
    (hl : LANGUAGE_TOKENS.contains (lowerStr t) = false) :
    ∀ (ts : List String) (s : ParseState),
      (parseTokensLoop s (ts ++ [t])).group = some (lowerStr t) := by
  intro ts
  induction ts with
  | nil =>
    intro s
    show (parseTokensLoop s [t]).group = _
    rw [parseTokensLoop, parseTokensLoop]
    exact parseStep_last_group s t hy hr hq hl
  | cons a as ih =>
    intro s
    show (parseTokensLoop s (a :: (as ++ [t]))).group = _
    rw [parseTokensLoop]
    exact ih _

/-- C7 (amended): for every non-empty release title whose final token is
not recognized as a year, resolution, quality, or language marker, that
final token (lowercased) is returned as the release-group tag in the
`group` field of `parseReleaseTokens`; when the final token is such a
marker, no release group is extracted even when an earlier non-quality
token exists (see the counterexample). -/
theorem c7_release_group (title : String) (ts : List String) (t : String)
    (hne : title ≠ "") (htok : tokenizeRelease title = ts ++ [t])
    (hy : isYearToken t = false)
    (hr : isResolutionToken (lowerStr t) = false)
    (hq : QUALITY_TOKENS.contains (lowerStr t) = false)
    (hl : LANGUAGE_TOKENS.contains (lowerStr t) = false) :
    (parseReleaseTokens title).group = some (lowerStr t) := by
  rw [parseReleaseTokens, if_neg hne]
  show (parseTokensLoop initParseState (tokenizeRelease title)).group = _
  rw [htok]
  exact parseTokensLoop_group_last t hy hr hq hl ts initParseState

theorem c7_release_group_witness :
    ("Some.Movie.2021.1080p.WEB.x264.GRP" : String) ≠ "" ∧
    tokenizeRelease "Some.Movie.2021.1080p.WEB.x264.GRP" =
      ["Some", "Movie", "2021", "1080p", "WEB", "x264"] ++ ["GRP"] ∧
    isYearToken "GRP" = false ∧
    isResolutionToken (lowerStr "GRP") = false ∧
    QUALITY_TOKENS.contains (lowerStr "GRP") = false ∧
    LANGUAGE_TOKENS.contains (lowerStr "GRP") = false ∧
    (parseReleaseTokens "Some.Movie.2021.1080p.WEB.x264.GRP").group =
      some (lowerStr "GRP") :=
  ⟨by decide, by decide, by decide, by decide, by decide, by decide,
    c7_release_group "Some.Movie.2021.1080p.WEB.x264.GRP"
      ["Some", "Movie", "2021", "1080p", "WEB", "x264"] "GRP"
      (by decide) (by decide) (by decide) (by decide) (by decide) (by decide)⟩

/-! ## C5 -/

theorem matchItemOf_eq_some (sp : ParsedRelease) (minS : ℚ) (strict : Bool)
    (kv : String × HistoryEntry) (m : MatchItem) :
    matchItemOf sp minS strict kv = some m ↔
      isMatchCond sp minS strict kv = true ∧
      m = ⟨kv.2, kv.1, (histSim sp kv).score, histSim sp kv⟩ := by
  rw [matchItemOf]
  split
  · rename_i h
    simp only [h, true_and, Option.some.injEq]
    exact eq_comm
  · rename_i h
    simp only [Bool.not_eq_true] at h
    simp [h]

theorem mem_findMatchingHistoryItems (searchTitle : String)
    (historyMap : List (String × HistoryEntry)) (minS : ℚ) (strict : Bool)
    (m : MatchItem) (hs : searchTitle ≠ "") (hm : historyMap ≠ [])
    (ht : (parseReleaseTokens searchTitle).titleWords ≠ []) :
    m ∈ findMatchingHistoryItems searchTitle historyMap minS strict ↔
      ∃ kv ∈ historyMap,
        matchItemOf (parseReleaseTokens searchTitle) minS strict kv = some m := by
  simp only [findMatchingHistoryItems]
  rw [if_neg (by push_neg; exact ⟨hs, hm⟩), if_neg ht, sortByScoreDesc,
    List.Perm.mem_iff (List.perm_insertionSort _ _), List.mem_filterMap]

theorem findMatching_sorted (searchTitle : String)
    (historyMap : List (String × HistoryEntry)) (minS : ℚ) (strict : Bool) :
    List.Sorted scoreDescRel
      (findMatchingHistoryItems searchTitle historyMap minS strict) := by
  simp only [findMatchingHistoryItems]
  split
  · exact List.sorted_nil
  · split
    · exact List.sorted_nil
    · exact List.sorted_insertionSort _ _

/-- C5 counterexample: in strict mode the code accepts only the forward
containment "all search words among the history words".  For search
title "alpha beta" and history entry "alpha" the symmetric subset
condition of the spec holds (all history words are among the search
words), yet strict matching returns no match. -/
theorem c5_counterexample :
    (histSim (parseReleaseTokens "alpha beta")
        ("alpha", ⟨none, 0⟩)).allWords2InWords1 = true ∧
    findMatchingHistoryItems "alpha beta" [("alpha", ⟨none, 0⟩)] (3/5) true =
      [] := by
  exact ⟨by decide, by decide⟩

/-- C5 (amended): `findMatchingHistoryItems` returns its matches sorted
by descending similarity score; in fuzzy mode an entry is matched
exactly when its score reaches the configured minimum-similarity
threshold (a score exactly at the threshold matches, one below does
not) or one of the two asymmetric word-containment conditions holds; in
strict mode only the forward containment (every search-title word among
the history entry's words) is accepted, with no score threshold. -/
theorem c5_history_matching (searchTitle : String)
    (historyMap : List (String × HistoryEntry)) (minSimilarity : ℚ)
    (hs : searchTitle ≠ "") (hm : historyMap ≠ [])
    (ht : (parseReleaseTokens searchTitle).titleWords ≠ []) :
    (∀ strict : Bool,
      List.Sorted scoreDescRel
        (findMatchingHistoryItems searchTitle historyMap minSimilarity strict)) ∧
    (∀ (k : String) (e : HistoryEntry), (k, e) ∈ historyMap →
      ((minSimilarity ≤ (histSim (parseReleaseTokens searchTitle) (k, e)).score ∨
          (histSim (parseReleaseTokens searchTitle) (k, e)).allWords1InWords2 = true ∨
          (histSim (parseReleaseTokens searchTitle) (k, e)).allWords2InWords1 = true) ↔
        ∃ m ∈ findMatchingHistoryItems searchTitle historyMap minSimilarity false,
          m.entry = e ∧ m.normalizedTitle = k ∧
          m.similarity = (histSim (parseReleaseTokens searchTitle) (k, e)).score)) ∧
    (∀ (k : String) (e : HistoryEntry), (k, e) ∈ historyMap →
      ((histSim (parseReleaseTokens searchTitle) (k, e)).allWords1InWords2 = true ↔
        ∃ m ∈ findMatchingHistoryItems searchTitle historyMap minSimilarity true,
          m.entry = e ∧ m.normalizedTitle = k ∧
          m.similarity = (histSim (parseReleaseTokens searchTitle) (k, e)).score)) := by
  refine ⟨fun strict => findMatching_sorted _ _ _ _, ?_, ?_⟩
  · intro k e hke
    constructor
    · intro hcond
      refine ⟨⟨e, k, (histSim (parseReleaseTokens searchTitle) (k, e)).score,
        histSim (parseReleaseTokens searchTitle) (k, e)⟩, ?_, rfl, rfl, rfl⟩
      rw [mem_findMatchingHistoryItems _ _ _ _ _ hs hm ht]
      refine ⟨(k, e), hke, ?_⟩
      rw [matchItemOf_eq_some]
      refine ⟨?_, rfl⟩
      show (decide ((histSim (parseReleaseTokens searchTitle) (k, e)).score ≥
          minSimilarity) ||
        (histSim (parseReleaseTokens searchTitle) (k, e)).allWords1InWords2 ||
        (histSim (parseReleaseTokens searchTitle) (k, e)).allWords2InWords1) = true
      rcases hcond with h | h | h
      · simp [ge_iff_le, h]
      · simp [h]
      · simp [h]
    · rintro ⟨m, hmem, hme, hmk, -⟩
      rw [mem_findMatchingHistoryItems _ _ _ _ _ hs hm ht] at hmem
      obtain ⟨⟨k', e'⟩, hkv, heq⟩ := hmem
      rw [matchItemOf_eq_some] at heq
      obtain ⟨hcond, hmeq⟩ := heq
      subst hmeq
      have hk : k' = k := hmk
      have he : e' = e := hme
      subst hk
      subst he
      have hcond' : (decide ((histSim (parseReleaseTokens searchTitle)
          (k', e')).score ≥ minSimilarity) ||
        (histSim (parseReleaseTokens searchTitle) (k', e')).allWords1InWords2 ||
        (histSim (parseReleaseTokens searchTitle) (k', e')).allWords2InWords1) =
          true := hcond
      rcases Bool.or_eq_true_iff.mp hcond' with h | h
      · rcases Bool.or_eq_true_iff.mp h with h' | h'
        · exact Or.inl (ge_iff_le.mp (of_decide_eq_true h'))
        · exact Or.inr (Or.inl h')
      · exact Or.inr (Or.inr h)
  · intro k e hke
    constructor
    · intro hcond
      refine ⟨⟨e, k, (histSim (parseReleaseTokens searchTitle) (k, e)).score,
        histSim (parseReleaseTokens searchTitle) (k, e)⟩, ?_, rfl, rfl, rfl⟩
      rw [mem_findMatchingHistoryItems _ _ _ _ _ hs hm ht]
      refine ⟨(k, e), hke, ?_⟩
      rw [matchItemOf_eq_some]
      exact ⟨hcond, rfl⟩
    · rintro ⟨m, hmem, hme, hmk, -⟩
      rw [mem_findMatchingHistoryItems _ _ _ _ _ hs hm ht] at hmem
      obtain ⟨⟨k', e'⟩, hkv, heq⟩ := hmem
      rw [matchItemOf_eq_some] at heq
      obtain ⟨hcond, hmeq⟩ := heq
      subst hmeq
      have hk : k' = k := hmk
      have he : e' = e := hme
      subst hk
      subst he
      exact hcond

theorem c5_history_matching_witness :
    ("alpha beta" : String) ≠ "" ∧
    ([("alpha beta x264", (⟨none, 0⟩ : HistoryEntry))] :
      List (String × HistoryEntry)) ≠ [] ∧
    (parseReleaseTokens "alpha beta").titleWords ≠ [] ∧
    ("alpha beta x264", (⟨none, 0⟩ : HistoryEntry)) ∈
      [("alpha beta x264", (⟨none, 0⟩ : HistoryEntry))] ∧
    ∃ m ∈ findMatchingHistoryItems "alpha beta"
        [("alpha beta x264", ⟨none, 0⟩)] (3/5) false,
      m.entry = ⟨none, 0⟩ ∧ m.normalizedTitle = "alpha beta x264" ∧
      m.similarity =
        (histSim (parseReleaseTokens "alpha beta")
          ("alpha beta x264", ⟨none, 0⟩)).score :=
  ⟨by decide, by decide, by decide, by decide,
    ((c5_history_matching "alpha beta" [("alpha beta x264", ⟨none, 0⟩)] (3/5)
        (by decide) (by decide) (by decide)).2.1 "alpha beta x264" ⟨none, 0⟩
        (by decide)).mp
      (Or.inr (Or.inl (by decide)))⟩

end UsenetStreamer
